import Mathlib

/-
Verification of the VirtualBox VM lifecycle core of capstan
(package vbox, file util.go): LaunchVM, vmExists, vmList, vmCreate,
vmSetupNAT, DeleteVM, StopVM, VBoxManage, VBoxHeadless, sockPath,
storagePath.

The Go code drives an external hypervisor through the `VBoxManage`
command and a headless VM process, and bridges a console socket.
We embed it shallowly: the external world is an environment `Env`
supplying the outcome of every external interaction (process start
results, exit codes, the `list vms` output text, socket-connection
results), and each Go function becomes a Lean function from the
environment and its arguments to the list of externally visible
events it performs (`Event`) together with its Go return value
(`Except String` mirrors Go's `error` results, the error being the
message string).
-/

namespace Capstan

/-- One NAT port-forwarding rule (Go struct `nat.Rule`): guest port and
host port, both strings. -/
structure Rule where
  guestPort : String
  hostPort : String
deriving DecidableEq

/-- Go struct `VMConfig` from package vbox. -/
structure VMConfig where
  name : String
  dir : String
  image : String
  memory : Int
  cpus : Int
  natRules : List Rule

/-- Models Go `filepath.Join a b` for the non-Windows separator; path
cleaning is not modelled (the joined components here contain no
redundant separators). -/
def joinPath (a b : String) : String := a ++ "/" ++ b

/-- Go method `(c *VMConfig) sockPath()`: named pipe on Windows,
`dir/name/name.sock` elsewhere.  `goos` models `runtime.GOOS`. -/
def sockPath (goos : String) (c : VMConfig) : String :=
  if goos = "windows" then "\\\\.\\pipe\\" ++ c.name
  else joinPath c.dir (joinPath c.name (c.name ++ ".sock"))

/-- Go method `(c *VMConfig) storagePath()`: `dir/name/disk.vdi`. -/
def storagePath (c : VMConfig) : String :=
  joinPath c.dir (joinPath c.name "disk.vdi")

/-- Outcome of starting one external process and waiting for it:
`startErr` is the error from `cmd.Start()` (none if the program
started), `exitOk` is whether `cmd.Wait()` reported exit code zero. -/
structure ProcResult where
  startErr : Option String
  exitOk : Bool

/-- Go's `%s` rendering of a `[]string` argument vector (`fmt.Errorf`
in `VBoxManage`): the elements space-separated inside brackets. -/
def goFmtStrings (args : List String) : String :=
  "[" ++ String.intercalate " " args ++ "]"

/-- Go function `VBoxManage(args...)`: starts the external program and
waits.  A start error is returned as-is; a nonzero exit becomes the
error `fmt.Errorf("VBoxManage %s", args)`; exit zero is success.
`run` is the environment's account of the external process. -/
def VBoxManage (run : List String → ProcResult) (args : List String) :
    Except String Unit :=
  match (run args).startErr with
  | some e => Except.error e
  | none =>
    if (run args).exitOk then Except.ok ()
    else Except.error ("VBoxManage " ++ goFmtStrings args)

/-- Externally visible events of the vbox package, in program order. -/
inductive Event where
  | manage (args : List String)
  | listVMs
  | headless (args : List String)
  | connectAttempt (path : String)
  | sleep (ms : Nat)
deriving DecidableEq

/-- Runs a sequence of `VBoxManage` invocations fail-fast, exactly as
the chain of `err := VBoxManage(...); if err != nil return err`
statements in `vmCreate` does, recording each issued invocation. -/
def runSeq (run : List String → ProcResult) :
    List (List String) → List Event × Except String Unit
  | [] => ([], Except.ok ())
  | a :: rest =>
    match VBoxManage run a with
    | Except.error e => ([Event.manage a], Except.error e)
    | Except.ok _ =>
      let p := runSeq run rest
      (Event.manage a :: p.1, p.2)

/-- The NAT rule string built in `vmSetupNAT`:
`fmt.Sprintf("guest%s,tcp,,%s,,%s", rule.GuestPort, rule.HostPort,
rule.GuestPort)`. -/
def natRuleString (r : Rule) : String :=
  "guest" ++ r.guestPort ++ ",tcp,," ++ r.hostPort ++ ",," ++ r.guestPort

/-- The `VBoxManage` invocation `vmSetupNAT` issues for one rule. -/
def natCmd (c : VMConfig) (r : Rule) : List String :=
  ["modifyvm", c.name, "--natpf1", natRuleString r]

/-- The invocations of `vmSetupNAT`, one per rule in order. -/
def natCmds (c : VMConfig) : List (List String) :=
  c.natRules.map (natCmd c)

/-- The `VBoxManage` invocations `vmCreate` issues before `vmSetupNAT`,
in source order: create the VM record, register it, clone the source
image, create the storage controller, attach the cloned disk, set the
network adapter to NAT with a virtio NIC. -/
def preNatCmds (c : VMConfig) : List (List String) :=
  [["createvm", "--name", c.name, "--basefolder", c.dir, "-ostype", "Linux26_64"],
   ["registervm", joinPath c.dir (joinPath c.name (c.name ++ ".vbox"))],
   ["clonehd", c.image, storagePath c],
   ["storagectl", c.name, "--name", "SATA", "--add", "sata", "--controller", "IntelAHCI"],
   ["storageattach", c.name, "--storagectl", "SATA", "--port", "0", "--type", "hdd", "--medium", storagePath c],
   ["modifyvm", c.name, "--nic1", "nat", "--nictype1", "virtio"]]

/-- The `VBoxManage` invocations `vmCreate` issues after `vmSetupNAT`,
in source order: high-precision timer, serial-port redirection to the
socket path, memory size (`strconv.FormatInt(c.Memory, 10)`), CPU
count (`strconv.Itoa(c.Cpus)`). -/
def postNatCmds (goos : String) (c : VMConfig) : List (List String) :=
  [["modifyvm", c.name, "--hpet", "on"],
   ["modifyvm", c.name, "--uart1", "0x3f8", "4", "--uartmode1", "server", sockPath goos c],
   ["modifyvm", c.name, "--memory", toString c.memory],
   ["modifyvm", c.name, "--cpus", toString c.cpus]]

/-- The full ordered `VBoxManage` invocation sequence of `vmCreate`. -/
def createCmds (goos : String) (c : VMConfig) : List (List String) :=
  preNatCmds c ++ natCmds c ++ postNatCmds goos c

/-- Splits a character list at every occurrence of `sep`, like Go's
`strings.Split` (an empty input yields one empty field). -/
def splitCh (sep : Char) : List Char → List (List Char)
  | [] => [[]]
  | c :: cs =>
    if c = sep then [] :: splitCh sep cs
    else
      match splitCh sep cs with
      | [] => [[c]]
      | g :: gs => (c :: g) :: gs

/-- Everything before the last double quote of the list, or none when
the list has no double quote: the tail part of the greedy match of
the Go regexp `"(.*)"` once the opening quote has been consumed. -/
def upToLastQuote : List Char → Option (List Char)
  | [] => none
  | c :: cs =>
    match upToLastQuote cs with
    | some t => some (c :: t)
    | none => if c = '"' then some [] else none

/-- Models `regexp.Compile("\"(.*)\"").FindStringSubmatch(line)`: the
captured group spans from after the first double quote to before the
last double quote of the line; none when the line has fewer than two
double quotes (no match, the line is skipped). -/
def quotedGroup : List Char → Option (List Char)
  | [] => none
  | c :: cs => if c = '"' then upToLastQuote cs else quotedGroup cs

/-- The pure parsing part of Go `vmList()`: split the command output on
newlines and keep, per line, the regexp capture when it matches. -/
def vmListParse (out : String) : List String :=
  ((splitCh '\n' out.data).filterMap quotedGroup).map (fun l => String.mk l)

/-- The external world as the vbox package observes it. -/
structure Env where
  goos : String
  run : List String → ProcResult
  listResult : Except String String
  headlessStart : Except String Unit
  connect : String → Nat → Except String Unit

/-- Go `vmList()`: runs `VBoxManage list vms`; a command failure is
returned to the caller, otherwise the parsed names. -/
def vmList (env : Env) : List Event × Except String (List String) :=
  ([Event.listVMs],
   match env.listResult with
   | Except.error e => Except.error e
   | Except.ok out => Except.ok (vmListParse out))

/-- Go `vmExists(vmName)`: a `vmList` failure propagates; otherwise
true exactly when some listed name equals `vmName`. -/
def vmExists (env : Env) (vmName : String) : List Event × Except String Bool :=
  let p := vmList env
  (p.1, p.2.map (fun vms => vms.contains vmName))

/-- The argument vector of Go `DeleteVM`. -/
def deleteCmd (c : VMConfig) : List String :=
  ["unregistervm", c.name, "--delete"]

/-- Go `DeleteVM(c)`: one `VBoxManage unregistervm <name> --delete`. -/
def DeleteVM (env : Env) (c : VMConfig) : List Event × Except String Unit :=
  ([Event.manage (deleteCmd c)], VBoxManage env.run (deleteCmd c))

/-- Go `StopVM(name)`: one `VBoxManage controlvm <name> poweroff`. -/
def StopVM (env : Env) (name : String) : List Event × Except String Unit :=
  ([Event.manage ["controlvm", name, "poweroff"]],
   VBoxManage env.run ["controlvm", name, "poweroff"])

/-- Go `vmCreate(c)`: the fail-fast sequence of `createCmds`. -/
def vmCreate (env : Env) (c : VMConfig) : List Event × Except String Unit :=
  runSeq env.run (createCmds env.goos c)

/-- The console connection retry loop of `LaunchVM`:
`for i := 0; i < 5; i++ { conn, err = Connect(path); if err == nil
break; Sleep(500ms) }` followed by `if err != nil return err`.
`rest` is the number of loop iterations still allowed after the
current one (the loop runs with `rest = 4`); note that the 500ms
sleep runs after every failed attempt, the last included. -/
def retryLoop (connect : Nat → Except String Unit) (path : String) :
    Nat → Nat → List Event × Except String Unit
  | i, 0 =>
    match connect i with
    | Except.ok _ => ([Event.connectAttempt path], Except.ok ())
    | Except.error e =>
      ([Event.connectAttempt path, Event.sleep 500], Except.error e)
  | i, r + 1 =>
    match connect i with
    | Except.ok _ => ([Event.connectAttempt path], Except.ok ())
    | Except.error _ =>
      let p := retryLoop connect path (i + 1) r
      (Event.connectAttempt path :: Event.sleep 500 :: p.1, p.2)

/-- The argument vector passed to `VBoxHeadless` by `LaunchVM`. -/
def headlessCmd (c : VMConfig) : List String := ["--startvm", c.name]

/-- Sequential composition with Go's fail-fast error discipline: run
`p`; on error stop with `p`'s events, otherwise continue with `f`. -/
def bindE {α β : Type} (p : List Event × Except String α)
    (f : α → List Event × Except String β) : List Event × Except String β :=
  match p.2 with
  | Except.error e => (p.1, Except.error e)
  | Except.ok a => (p.1 ++ (f a).1, (f a).2)

/-- Go `LaunchVM(c)`: existence check, deletion of a stale VM,
provisioning, headless start (`VBoxHeadless --startvm <name>`), then
the console-connection retry loop; every step returns its error to
the caller at once.  A successful run returns the process handle
(modelled `()`); the bridging goroutines perform no further external
events of this package. -/
def LaunchVM (env : Env) (c : VMConfig) : List Event × Except String Unit :=
  bindE (vmExists env c.name) (fun exs =>
    bindE (if exs then DeleteVM env c else ([], Except.ok ())) (fun _ =>
      bindE (vmCreate env c) (fun _ =>
        bindE ([Event.headless (headlessCmd c)], env.headlessStart) (fun _ =>
          retryLoop (env.connect (sockPath env.goos c)) (sockPath env.goos c) 0 4))))

/-- Total milliseconds slept in a trace. -/
def totalSleep (t : List Event) : Nat :=
  (t.map (fun ev => match ev with | Event.sleep n => n | _ => 0)).sum

/-- Number of console-connection attempts in a trace. -/
def countConnect (t : List Event) : Nat :=
  t.countP (fun ev => match ev with | Event.connectAttempt _ => true | _ => false)

/-- The trace of `n` failed connection attempts, each followed by its
500ms sleep. -/
def failTrace (path : String) : Nat → List Event
  | 0 => []
  | n + 1 => Event.connectAttempt path :: Event.sleep 500 :: failTrace path n

theorem bindE_error {α β : Type} {p : List Event × Except String α}
    {e : String} (f : α → List Event × Except String β)
    (h : p.2 = Except.error e) : bindE p f = (p.1, Except.error e) := by
  simp [bindE, h]

theorem bindE_ok {α β : Type} {p : List Event × Except String α} {a : α}
    (f : α → List Event × Except String β)
    (h : p.2 = Except.ok a) : bindE p f = (p.1 ++ (f a).1, (f a).2) := by
  simp [bindE, h]

theorem mem_bindE {α β : Type} {p : List Event × Except String α}
    {f : α → List Event × Except String β} {ev : Event}
    (h : ev ∈ (bindE p f).1) :
    ev ∈ p.1 ∨ ∃ a, p.2 = Except.ok a ∧ ev ∈ (f a).1 := by
  rcases hp : p.2 with e | a
  · rw [bindE_error f hp] at h
    exact Or.inl h
  · rw [bindE_ok f hp] at h
    rcases List.mem_append.mp h with h' | h'
    · exact Or.inl h'
    · exact Or.inr ⟨a, by simp [hp], h'⟩

theorem runSeq_ok (run : List String → ProcResult) :
    ∀ cmds, (∀ a ∈ cmds, VBoxManage run a = Except.ok ()) →
    runSeq run cmds = (cmds.map Event.manage, Except.ok ())
  | [], _ => rfl
  | a :: rest, h => by
    have ha := h a (List.mem_cons_self a rest)
    have hr := runSeq_ok run rest (fun b hb => h b (List.mem_cons_of_mem a hb))
    simp [runSeq, ha, hr]

theorem runSeq_failfast (run : List String → ProcResult) :
    ∀ pre (x : List String) post (e : String),
    (∀ a ∈ pre, VBoxManage run a = Except.ok ()) →
    VBoxManage run x = Except.error e →
    runSeq run (pre ++ x :: post) =
      (pre.map Event.manage ++ [Event.manage x], Except.error e)
  | [], x, post, e, _, hx => by simp [runSeq, hx]
  | a :: pre, x, post, e, h, hx => by
    have ha := h a (List.mem_cons_self a pre)
    have hr := runSeq_failfast run pre x post e
      (fun b hb => h b (List.mem_cons_of_mem a hb)) hx
    simp [runSeq, ha, hr]

theorem runSeq_events (run : List String → ProcResult) :
    ∀ cmds (ev : Event), ev ∈ (runSeq run cmds).1 →
    ∃ a, a ∈ cmds ∧ ev = Event.manage a
  | [], ev, h => by simp [runSeq] at h
  | a :: rest, ev, h => by
    rcases hv : VBoxManage run a with e | u
    · simp [runSeq, hv] at h
      exact ⟨a, List.mem_cons_self a rest, h⟩
    · simp [runSeq, hv] at h
      rcases h with h | h
      · exact ⟨a, List.mem_cons_self a rest, h⟩
      · rcases runSeq_events run rest ev h with ⟨b, hb, hevb⟩
        exact ⟨b, List.mem_cons_of_mem a hb, hevb⟩

theorem retryLoop_allFail (connect : Nat → Except String Unit) (path : String)
    (f : Nat → String) :
    ∀ rest i, (∀ j, j < i + rest + 1 → connect j = Except.error (f j)) →
    retryLoop connect path i rest =
      (failTrace path (rest + 1), Except.error (f (i + rest)))
  | 0, i, h => by
    have hi := h i (by omega)
    simp [retryLoop, hi, failTrace]
  | rest + 1, i, h => by
    have hi := h i (by omega)
    have hr := retryLoop_allFail connect path f rest (i + 1)
      (fun j hj => h j (by omega))
    have harith : i + 1 + rest = i + (rest + 1) := by omega
    simp [retryLoop, hi, hr, failTrace, harith]

theorem retryLoop_success (connect : Nat → Except String Unit) (path : String)
    (f : Nat → String) :
    ∀ k i rest, k ≤ rest →
    (∀ j, j < k → connect (i + j) = Except.error (f (i + j))) →
    connect (i + k) = Except.ok () →
    retryLoop connect path i rest =
      (failTrace path k ++ [Event.connectAttempt path], Except.ok ())
  | 0, i, rest, _, _, hok => by
    have hi : connect i = Except.ok () := by simpa using hok
    cases rest <;> simp [retryLoop, hi, failTrace]
  | k + 1, i, rest, hk, hfail, hok => by
    rcases rest with _ | r
    · omega
    · have hi : connect i = Except.error (f i) := by
        have := hfail 0 (by omega)
        simpa using this
      have hr := retryLoop_success connect path f k (i + 1) r (by omega)
        (fun j hj => by
          have hx := hfail (j + 1) (by omega)
          have harith : i + (j + 1) = i + 1 + j := by omega
          rwa [harith] at hx)
        (by
          have harith : i + (k + 1) = i + 1 + k := by omega
          rwa [harith] at hok)
      simp [retryLoop, hi, hr, failTrace]

theorem retryLoop_events (connect : Nat → Except String Unit) (path : String) :
    ∀ rest i (ev : Event), ev ∈ (retryLoop connect path i rest).1 →
    ev = Event.connectAttempt path ∨ ev = Event.sleep 500
  | 0, i, ev, h => by
    rcases hv : connect i with e | u <;> simp [retryLoop, hv] at h <;> tauto
  | rest + 1, i, ev, h => by
    rcases hv : connect i with e | u
    · simp [retryLoop, hv] at h
      rcases h with h | h | h
      · exact Or.inl h
      · exact Or.inr h
      · exact retryLoop_events connect path rest (i + 1) ev h
    · simp [retryLoop, hv] at h
      exact Or.inl h

theorem failTrace_events (path : String) :
    ∀ n (ev : Event), ev ∈ failTrace path n →
    ev = Event.connectAttempt path ∨ ev = Event.sleep 500
  | 0, ev, h => by simp [failTrace] at h
  | n + 1, ev, h => by
    simp [failTrace] at h
    rcases h with h | h | h
    · exact Or.inl h
    · exact Or.inr h
    · exact failTrace_events path n ev h

theorem totalSleep_append (s t : List Event) :
    totalSleep (s ++ t) = totalSleep s + totalSleep t := by
  simp [totalSleep]

theorem countConnect_append (s t : List Event) :
    countConnect (s ++ t) = countConnect s + countConnect t := by
  simp [countConnect, List.countP_append]

theorem totalSleep_failTrace (path : String) :
    ∀ n, totalSleep (failTrace path n) = 500 * n
  | 0 => rfl
  | n + 1 => by
    have ih := totalSleep_failTrace path n
    simp [failTrace, totalSleep] at ih ⊢
    omega

theorem countConnect_failTrace (path : String) :
    ∀ n, countConnect (failTrace path n) = n
  | 0 => rfl
  | n + 1 => by
    have ih := countConnect_failTrace path n
    simp [failTrace, countConnect, List.countP_cons] at ih ⊢
    omega

theorem countConnect_nil : countConnect [] = 0 := rfl

theorem countConnect_listVMs : countConnect [Event.listVMs] = 0 := rfl

theorem countConnect_manage1 (a : List String) :
    countConnect [Event.manage a] = 0 := rfl

theorem countConnect_headless1 (a : List String) :
    countConnect [Event.headless a] = 0 := rfl

theorem countConnect_connect1 (p : String) :
    countConnect [Event.connectAttempt p] = 1 := rfl

theorem totalSleep_nil : totalSleep [] = 0 := rfl

theorem totalSleep_listVMs : totalSleep [Event.listVMs] = 0 := rfl

theorem totalSleep_manage1 (a : List String) :
    totalSleep [Event.manage a] = 0 := rfl

theorem totalSleep_headless1 (a : List String) :
    totalSleep [Event.headless a] = 0 := rfl

theorem totalSleep_connect1 (p : String) :
    totalSleep [Event.connectAttempt p] = 0 := rfl

theorem totalSleep_map_manage (l : List (List String)) :
    totalSleep (l.map Event.manage) = 0 := by
  simp [totalSleep, List.map_map]
  exact List.sum_eq_zero (by intro x hx; rcases List.mem_map.mp hx with ⟨a, _, ha⟩; simp [Function.comp] at ha ⊢; omega)

theorem countConnect_map_manage (l : List (List String)) :
    countConnect (l.map Event.manage) = 0 := by
  simp [countConnect, List.countP_eq_zero]

theorem upToLastQuote_none : ∀ l : List Char, '"' ∉ l → upToLastQuote l = none
  | [], _ => rfl
  | c :: cs, h => by
    have hc : ¬(c = '"') := fun hh => h (by simp [hh])
    have hr := upToLastQuote_none cs (fun hm => h (List.mem_cons_of_mem c hm))
    simp [upToLastQuote, hr, hc]

theorem upToLastQuote_last (suf : List Char) (hs : '"' ∉ suf) :
    ∀ mid : List Char, upToLastQuote (mid ++ '"' :: suf) = some mid
  | [] => by simp [upToLastQuote, upToLastQuote_none suf hs]
  | c :: mid => by simp [upToLastQuote, upToLastQuote_last suf hs mid]

theorem quotedGroup_none : ∀ l : List Char, '"' ∉ l → quotedGroup l = none
  | [], _ => rfl
  | c :: cs, h => by
    have hc : ¬(c = '"') := fun hh => h (by simp [hh])
    have hr := quotedGroup_none cs (fun hm => h (List.mem_cons_of_mem c hm))
    simp [quotedGroup, hr, hc]

theorem quotedGroup_spec (mid suf : List Char) (hs : '"' ∉ suf) :
    ∀ pre : List Char, '"' ∉ pre →
    quotedGroup (pre ++ '"' :: mid ++ '"' :: suf) = some mid
  | [], _ => by simp [quotedGroup, upToLastQuote_last suf hs mid]
  | c :: pre, h => by
    have hc : ¬(c = '"') := fun hh => h (by simp [hh])
    have hr := quotedGroup_spec mid suf hs pre (fun hm => h (List.mem_cons_of_mem c hm))
    simp only [List.cons_append, quotedGroup, if_neg hc]
    exact hr

theorem splitCh_no_sep (sep : Char) : ∀ l, sep ∉ l → splitCh sep l = [l]
  | [], _ => rfl
  | c :: cs, h => by
    have hc : ¬(c = sep) := fun hh => h (by simp [hh])
    have hr := splitCh_no_sep sep cs (fun hm => h (List.mem_cons_of_mem c hm))
    simp [splitCh, hc, hr]

theorem splitCh_append (sep : Char) (b : List Char) :
    ∀ a, sep ∉ a → splitCh sep (a ++ sep :: b) = a :: splitCh sep b
  | [], _ => by simp [splitCh]
  | c :: a, h => by
    have hc : ¬(c = sep) := fun hh => h (by simp [hh])
    have hr := splitCh_append sep b a (fun hm => h (List.mem_cons_of_mem c hm))
    simp [splitCh, hc, hr]

theorem vmExists_fst (env : Env) (n : String) :
    (vmExists env n).1 = [Event.listVMs] := rfl

theorem vmExists_snd_ok {env : Env} {out : String} (n : String)
    (hout : env.listResult = Except.ok out) :
    (vmExists env n).2 = Except.ok ((vmListParse out).contains n) := by
  simp [vmExists, vmList, hout, Except.map]

theorem vmExists_snd_err {env : Env} {e : String} (n : String)
    (hout : env.listResult = Except.error e) :
    (vmExists env n).2 = Except.error e := by
  simp [vmExists, vmList, hout, Except.map]

theorem launch_events (env : Env) (c : VMConfig) :
    ∀ ev ∈ (LaunchVM env c).1,
      ev = Event.listVMs ∨ ev = Event.manage (deleteCmd c) ∨
      (∃ a, a ∈ createCmds env.goos c ∧ ev = Event.manage a) ∨
      ev = Event.headless (headlessCmd c) ∨
      ev = Event.connectAttempt (sockPath env.goos c) ∨ ev = Event.sleep 500 := by
  intro ev hev
  unfold LaunchVM at hev
  rcases mem_bindE hev with h | ⟨exs, _, h⟩
  · rw [vmExists_fst] at h
    simp at h
    exact Or.inl h
  · rcases mem_bindE h with h | ⟨_, _, h⟩
    · cases exs
      · simp at h
      · simp [DeleteVM] at h
        exact Or.inr (Or.inl h)
    · rcases mem_bindE h with h | ⟨_, _, h⟩
      · rcases runSeq_events env.run _ ev (by simpa [vmCreate] using h) with ⟨a, ha, hevb⟩
        exact Or.inr (Or.inr (Or.inl ⟨a, ha, hevb⟩))
      · rcases mem_bindE h with h | ⟨_, _, h⟩
        · simp at h
          exact Or.inr (Or.inr (Or.inr (Or.inl h)))
        · rcases retryLoop_events _ _ _ _ ev h with h | h
          · exact Or.inr (Or.inr (Or.inr (Or.inr (Or.inl h))))
          · exact Or.inr (Or.inr (Or.inr (Or.inr (Or.inr h))))

theorem launch_manage_absent {env : Env} {c : VMConfig} {out : String}
    (hout : env.listResult = Except.ok out)
    (habs : (vmListParse out).contains c.name = false) :
    ∀ ev ∈ (LaunchVM env c).1, ∀ args, ev = Event.manage args →
    args ∈ createCmds env.goos c := by
  intro ev hev args hargs
  unfold LaunchVM at hev
  rcases mem_bindE hev with h | ⟨exs, hexs, h⟩
  · rw [vmExists_fst] at h
    simp at h
    simp [h] at hargs
  · have hexs' : exs = false := by
      rw [vmExists_snd_ok c.name hout, habs] at hexs
      exact (Except.ok.injEq _ _).mp hexs.symm
    subst hexs'
    rcases mem_bindE h with h | ⟨_, _, h⟩
    · simp at h
    · rcases mem_bindE h with h | ⟨_, _, h⟩
      · rcases runSeq_events env.run _ ev (by simpa [vmCreate] using h) with ⟨a, ha, hevb⟩
        rw [hargs] at hevb
        have : args = a := by
          injection hevb
        exact this ▸ ha
      · rcases mem_bindE h with h | ⟨_, _, h⟩
        · simp at h
          simp [h] at hargs
        · rcases retryLoop_events _ _ _ _ ev h with h | h <;> simp [h] at hargs

theorem deleteCmd_not_create (goos : String) (c : VMConfig) :
    deleteCmd c ∉ createCmds goos c := by
  intro h
  simp [createCmds, preNatCmds, natCmds, postNatCmds, deleteCmd, natCmd] at h

theorem launch_reach {env : Env} {c : VMConfig} {out : String}
    (hout : env.listResult = Except.ok out)
    (hdel : (vmListParse out).contains c.name = true →
      VBoxManage env.run (deleteCmd c) = Except.ok ())
    (hcr : ∀ a ∈ createCmds env.goos c, VBoxManage env.run a = Except.ok ())
    (hh : env.headlessStart = Except.ok ()) :
    LaunchVM env c =
      ([Event.listVMs] ++
       (if (vmListParse out).contains c.name then [Event.manage (deleteCmd c)] else []) ++
       (createCmds env.goos c).map Event.manage ++
       [Event.headless (headlessCmd c)] ++
       (retryLoop (env.connect (sockPath env.goos c)) (sockPath env.goos c) 0 4).1,
      (retryLoop (env.connect (sockPath env.goos c)) (sockPath env.goos c) 0 4).2) := by
  have hc := runSeq_ok env.run (createCmds env.goos c) hcr
  cases hb : (vmListParse out).contains c.name
  · have hb' : ¬(c.name ∈ vmListParse out) := by simpa using hb
    simp [LaunchVM, bindE, vmExists, vmList, hout, hb', Except.map, vmCreate, hc, hh]
  · have hd := hdel hb
    have hb' : c.name ∈ vmListParse out := by simpa using hb
    simp [LaunchVM, bindE, vmExists, vmList, hout, hb', Except.map, vmCreate, hc, hh,
      DeleteVM, hd]

/-- An executor in which every external command starts and exits 0. -/
def allOk : List String → ProcResult := fun _ => ProcResult.mk none true

/-- A sample configuration with one NAT rule. -/
def cfgBox : VMConfig :=
  VMConfig.mk "box" "/tmp" "img.vdi" 512 1 [Rule.mk "8080" "9090"]

/-- A world where the VM `box` is already registered, every management
command succeeds, the headless start succeeds, and every console
connection attempt is refused. -/
def envRefused : Env :=
  Env.mk "linux" allOk (Except.ok "\"box\" {id}") (Except.ok ())
    (fun _ _ => Except.error "refused")

/-- A world identical to `envRefused` except that the console socket
becomes reachable on the third attempt (index 2). -/
def envRetry2 : Env :=
  Env.mk "linux" allOk (Except.ok "\"box\" {id}") (Except.ok ())
    (fun _ j => if j < 2 then Except.error "nope" else Except.ok ())

/-- An executor failing exactly on the NAT-rule command of `cfgBox`. -/
def natFailRun : List String → ProcResult :=
  fun args => ProcResult.mk none
    (!(args == ["modifyvm", "box", "--natpf1", "guest8080,tcp,,9090,,8080"]))

/-- A world where the name `box` is absent from the inventory, all
commands succeed, and the console connects at once. -/
def envAbsent : Env :=
  Env.mk "linux" allOk (Except.ok "\"other\" {id}") (Except.ok ())
    (fun _ _ => Except.ok ())

/-- An executor failing exactly on the deletion command of `cfgBox`. -/
def delFailRun : List String → ProcResult :=
  fun args => ProcResult.mk none
    (!(args == ["unregistervm", "box", "--delete"]))

/-- A world where `box` is registered and its deletion fails. -/
def envDelFail : Env :=
  Env.mk "linux" delFailRun (Except.ok "\"box\" {id}") (Except.ok ())
    (fun _ _ => Except.ok ())

/-- A world whose provisioning environment fails the NAT step. -/
def envNatFail : Env :=
  Env.mk "linux" natFailRun (Except.ok "") (Except.ok ())
    (fun _ _ => Except.ok ())

/-- A world where the `list vms` command itself fails. -/
def envErr : Env :=
  Env.mk "linux" allOk (Except.error "boom") (Except.ok ())
    (fun _ _ => Except.ok ())

/-- A world whose inventory holds `capstan-vm`, a strict superstring of
the target name `capstan`. -/
def envSub : Env :=
  Env.mk "linux" allOk (Except.ok "\"capstan-vm\" {id}") (Except.ok ())
    (fun _ _ => Except.ok ())

/-- A configuration named `capstan`, no NAT rules. -/
def cfgCap : VMConfig := VMConfig.mk "capstan" "/tmp" "img.vdi" 256 1 []

/-- An executor whose external program cannot be started at all. -/
def startFailRun : List String → ProcResult :=
  fun _ => ProcResult.mk (some "exec not found") false

/-- An executor whose external program starts but exits nonzero. -/
def exitFailRun : List String → ProcResult :=
  fun _ => ProcResult.mk none false

/-- C4: the NAT Rule Translator is the pure function `natRuleString`:
splitting its output at the commas of the hypervisor's forwarding-rule
syntax `name,proto,hostip,hostport,guestip,guestport` yields the
protocol token fixed to `tcp`, the host port in the host position
(field 3) and the guest port in the guest position (field 5); and the
invocation generated for a rule at any index of the rule list is the
same fixed string for that rule, independent of the index. -/
theorem claim_c4_nat_translator (gp hp : String)
    (h1 : ',' ∉ gp.data) (h2 : ',' ∉ hp.data) :
    splitCh ',' (natRuleString (Rule.mk gp hp)).data =
      [("guest" ++ gp).data, "tcp".data, [], hp.data, [], gp.data] ∧
    (∀ (c : VMConfig) (i : Nat) (r : Rule), c.natRules[i]? = some r →
      (natCmds c)[i]? = some ["modifyvm", c.name, "--natpf1", natRuleString r]) := by
  constructor
  · have e1 : ("guest" : String).data = ['g', 'u', 'e', 's', 't'] := rfl
    have e2 : (",tcp,," : String).data = [',', 't', 'c', 'p', ',', ','] := rfl
    have e3 : ((",," : String)).data = [',', ','] := rfl
    have e4 : ("tcp" : String).data = ['t', 'c', 'p'] := rfl
    have hdata : (natRuleString (Rule.mk gp hp)).data =
        (("guest" : String).data ++ gp.data) ++
          ',' :: (("tcp" : String).data ++
            ',' :: (([] : List Char) ++
              ',' :: (hp.data ++ ',' :: (([] : List Char) ++ ',' :: gp.data)))) := by
      simp [natRuleString, String.data_append, e1, e2, e3, e4]
    have ha : ',' ∉ ("guest" : String).data ++ gp.data := by
      rw [e1]
      simp [List.mem_append, h1]
    have hb : ',' ∉ ("tcp" : String).data := by rw [e4]; simp
    rw [hdata, splitCh_append ',' _ _ ha, splitCh_append ',' _ _ hb,
      splitCh_append ',' _ _ (by simp), splitCh_append ',' _ _ h2,
      splitCh_append ',' _ _ (by simp), splitCh_no_sep ',' gp.data h1]
    simp [String.data_append]
  · intro c i r hr
    simp [natCmds, List.getElem?_map, hr, natCmd]

/-- C5: the inventory parser keeps, for each output line, the regexp
capture when the line has a quoted token, silently skips lines with
no quoted token (in particular the two-line example yields exactly
`vm1`), and a failure of the list command itself is returned to the
caller. -/
theorem claim_c5_inventory (env : Env) :
    (∀ e, env.listResult = Except.error e → (vmList env).2 = Except.error e) ∧
    (∀ out, env.listResult = Except.ok out →
      (vmList env).2 = Except.ok (vmListParse out)) ∧
    vmListParse "\"vm1\" {uuid}\ngarbage line" = ["vm1"] ∧
    (∀ line : List Char, '"' ∉ line → quotedGroup line = none) ∧
    (∀ pre mid suf : List Char, '"' ∉ pre → '"' ∉ suf →
      quotedGroup (pre ++ '"' :: mid ++ '"' :: suf) = some mid) := by
  refine ⟨?_, ?_, by decide, quotedGroup_none, ?_⟩
  · intro e h
    simp [vmList, h]
  · intro out h
    simp [vmList, h]
  · intro pre mid suf hp hs
    exact quotedGroup_spec mid suf hs pre hp

/-- C7: the Command Executor `VBoxManage` returns a start error as-is
when the program cannot be started, succeeds on exit code zero, and on
a nonzero exit returns the error message `VBoxManage [args...]`, which
contains the space-separated argument vector of the invocation. -/
theorem claim_c7_executor (run : List String → ProcResult) (args : List String) :
    (∀ e b, run args = ProcResult.mk (some e) b →
      VBoxManage run args = Except.error e) ∧
    (run args = ProcResult.mk none true → VBoxManage run args = Except.ok ()) ∧
    (run args = ProcResult.mk none false →
      VBoxManage run args = Except.error ("VBoxManage " ++ goFmtStrings args) ∧
      ∃ s t, ("VBoxManage " ++ goFmtStrings args).data =
        s ++ (String.intercalate " " args).data ++ t) := by
  refine ⟨?_, ?_, ?_⟩
  · intro e b h
    simp [VBoxManage, h]
  · intro h
    simp [VBoxManage, h]
  · intro h
    refine ⟨by simp [VBoxManage, h], ("VBoxManage [" : String).data, ("]" : String).data, ?_⟩
    have h1 : ("VBoxManage [" : String).data =
        ("VBoxManage " : String).data ++ ("[" : String).data := rfl
    simp [goFmtStrings, String.data_append, h1]

/-- C9: on a line with two or more quoted tokens the parser captures
everything between the first and the last quote (greedy regexp), not
the first quoted token (`"a" "b"` yields the single name `a" "b`), and
each line contributes at most one name. -/
theorem claim_c9_greedy_capture :
    quotedGroup ('"' :: 'a' :: '"' :: ' ' :: '"' :: 'b' :: '"' :: []) =
      some ('a' :: '"' :: ' ' :: '"' :: 'b' :: []) ∧
    vmListParse "\"a\" \"b\"" = ["a\" \"b"] ∧
    (∀ pre mid suf : List Char, '"' ∉ pre → '"' ∉ suf →
      quotedGroup (pre ++ '"' :: mid ++ '"' :: suf) = some mid) ∧
    (∀ out : String, (vmListParse out).length ≤ (splitCh '\n' out.data).length) := by
  refine ⟨by decide, by decide, ?_, ?_⟩
  · intro pre mid suf hp hs
    exact quotedGroup_spec mid suf hs pre hp
  · intro out
    simp only [vmListParse, List.length_map]
    exact List.length_filterMap_le _ _

/-- C10: `vmExists` is true exactly when some inventory name is equal
to the target name as a full string; a name of which the target is a
mere substring does not count, and when the exact name is absent the
deletion command is never part of the launch trace. -/
theorem claim_c10_exact_match {env : Env} {out : String} (c : VMConfig)
    (hout : env.listResult = Except.ok out) :
    (vmExists env c.name).2 = Except.ok ((vmListParse out).contains c.name) ∧
    ((vmListParse out).contains c.name = true ↔ c.name ∈ vmListParse out) ∧
    (c.name ∉ vmListParse out →
      (vmExists env c.name).2 = Except.ok false ∧
      Event.manage (deleteCmd c) ∉ (LaunchVM env c).1) := by
  refine ⟨vmExists_snd_ok c.name hout, by simp, ?_⟩
  intro hnm
  have hb : (vmListParse out).contains c.name = false := by simpa using hnm
  refine ⟨by rw [vmExists_snd_ok c.name hout, hb], ?_⟩
  intro hdel
  exact deleteCmd_not_create env.goos c (launch_manage_absent hout hb _ hdel _ rfl)

/-- C2: `vmCreate` issues the management commands in exactly the
documented order (`createCmds`); the first failing step aborts the
sequence with that step's error and no later command is issued; in
particular a failure at the first NAT-rule step leaves the timer,
serial-port, memory and CPU commands unissued. -/
theorem claim_c2_provisioner_order (env : Env) (c : VMConfig) :
    ((∀ a ∈ createCmds env.goos c, VBoxManage env.run a = Except.ok ()) →
      vmCreate env c = ((createCmds env.goos c).map Event.manage, Except.ok ())) ∧
    (∀ pre x post e, createCmds env.goos c = pre ++ x :: post →
      (∀ a ∈ pre, VBoxManage env.run a = Except.ok ()) →
      VBoxManage env.run x = Except.error e →
      vmCreate env c = (pre.map Event.manage ++ [Event.manage x], Except.error e)) ∧
    (∀ r rest e, c.natRules = r :: rest →
      (∀ a ∈ preNatCmds c, VBoxManage env.run a = Except.ok ()) →
      VBoxManage env.run (natCmd c r) = Except.error e →
      vmCreate env c =
        ((preNatCmds c).map Event.manage ++ [Event.manage (natCmd c r)],
          Except.error e) ∧
      Event.manage ["modifyvm", c.name, "--hpet", "on"] ∉ (vmCreate env c).1 ∧
      Event.manage ["modifyvm", c.name, "--uart1", "0x3f8", "4", "--uartmode1",
        "server", sockPath env.goos c] ∉ (vmCreate env c).1 ∧
      Event.manage ["modifyvm", c.name, "--memory", toString c.memory] ∉
        (vmCreate env c).1 ∧
      Event.manage ["modifyvm", c.name, "--cpus", toString c.cpus] ∉
        (vmCreate env c).1) := by
  refine ⟨?_, ?_, ?_⟩
  · intro h
    exact runSeq_ok env.run (createCmds env.goos c) h
  · intro pre x post e hsplit hpre hx
    show runSeq env.run (createCmds env.goos c) = _
    rw [hsplit]
    exact runSeq_failfast env.run pre x post e hpre hx
  · intro r rest e hnat hpre hx
    have hsplit : createCmds env.goos c =
        preNatCmds c ++ natCmd c r ::
          (rest.map (natCmd c) ++ postNatCmds env.goos c) := by
      simp [createCmds, natCmds, hnat]
    have heq : vmCreate env c =
        ((preNatCmds c).map Event.manage ++ [Event.manage (natCmd c r)],
          Except.error e) := by
      show runSeq env.run (createCmds env.goos c) = _
      rw [hsplit]
      exact runSeq_failfast env.run (preNatCmds c) (natCmd c r) _ e hpre hx
    refine ⟨heq, ?_, ?_, ?_, ?_⟩ <;>
      rw [heq] <;> simp [preNatCmds, natCmd]

/-- C6: the console socket path is the named pipe `\\.\pipe\<name>` on
Windows and `<dir>/<name>/<name>.sock` elsewhere; the serial-port
redirection command of the Provisioner targets exactly `sockPath`, and
every connection attempt of `LaunchVM` is made to that same string. -/
theorem claim_c6_sock_path (env : Env) (c : VMConfig) :
    (env.goos = "windows" → sockPath env.goos c = "\\\\.\\pipe\\" ++ c.name) ∧
    (env.goos ≠ "windows" →
      sockPath env.goos c = c.dir ++ "/" ++ c.name ++ "/" ++ c.name ++ ".sock") ∧
    ["modifyvm", c.name, "--uart1", "0x3f8", "4", "--uartmode1", "server",
      sockPath env.goos c] ∈ createCmds env.goos c ∧
    (∀ p, Event.connectAttempt p ∈ (LaunchVM env c).1 →
      p = sockPath env.goos c) := by
  refine ⟨?_, ?_, ?_, ?_⟩
  · intro h
    simp [sockPath, h]
  · intro h
    simp [sockPath, h, joinPath, String.append_assoc]
  · simp [createCmds, postNatCmds]
  · intro p hp
    rcases launch_events env c (Event.connectAttempt p) hp with
      h | h | ⟨a, _, h⟩ | h | h | h
    · simp at h
    · simp at h
    · simp at h
    · simp at h
    · simpa using h
    · simp at h

/-- C3: with the name absent from the inventory, `LaunchVM` runs
exactly one provisioning sequence and the deletion command never
occurs in the trace; with the name present, deletion is invoked right
after the inventory query and before any provisioning, and a deletion
failure aborts the launch with that error and no further events. -/
theorem claim_c3_idempotent_relaunch {env : Env} {c : VMConfig} {out : String}
    (hout : env.listResult = Except.ok out) :
    ((vmListParse out).contains c.name = false →
      ((∀ a ∈ createCmds env.goos c, VBoxManage env.run a = Except.ok ()) →
        env.headlessStart = Except.ok () →
        env.connect (sockPath env.goos c) 0 = Except.ok () →
        LaunchVM env c =
          ([Event.listVMs] ++ (createCmds env.goos c).map Event.manage ++
            [Event.headless (headlessCmd c)] ++
            [Event.connectAttempt (sockPath env.goos c)], Except.ok ())) ∧
      Event.manage (deleteCmd c) ∉ (LaunchVM env c).1) ∧
    ((vmListParse out).contains c.name = true →
      (∃ rest, (LaunchVM env c).1 =
        Event.listVMs :: Event.manage (deleteCmd c) :: rest) ∧
      (∀ e, VBoxManage env.run (deleteCmd c) = Except.error e →
        LaunchVM env c =
          ([Event.listVMs, Event.manage (deleteCmd c)], Except.error e))) := by
  constructor
  · intro hb
    constructor
    · intro hcr hh hconn
      have hL := launch_reach hout (fun ht => by rw [hb] at ht; cases ht) hcr hh
      have hr := retryLoop_success (env.connect (sockPath env.goos c))
        (sockPath env.goos c) (fun _ => "") 0 0 4 (by omega)
        (fun j hj => by omega) (by simpa using hconn)
      rw [hr] at hL
      rw [hL, hb]
      simp [failTrace]
    · intro hdel
      exact deleteCmd_not_create env.goos c (launch_manage_absent hout hb _ hdel _ rfl)
  · intro hb
    have hb' : c.name ∈ vmListParse out := by simpa using hb
    constructor
    · rcases hd : VBoxManage env.run (deleteCmd c) with e | u
      · exact ⟨[], by simp [LaunchVM, bindE, vmExists, vmList, hout, hb',
          Except.map, DeleteVM, hd]⟩
      · refine ⟨(bindE (vmCreate env c) (fun _ =>
          bindE ([Event.headless (headlessCmd c)], env.headlessStart) (fun _ =>
            retryLoop (env.connect (sockPath env.goos c))
              (sockPath env.goos c) 0 4))).1, ?_⟩
        simp [LaunchVM, bindE, vmExists, vmList, hout, hb', Except.map, DeleteVM, hd]
    · intro e hd
      simp [LaunchVM, bindE, vmExists, vmList, hout, hb', Except.map, DeleteVM, hd]

/-- C1 (amended): for a config whose VM already exists, when every
console-connection attempt fails the loop makes exactly 5 attempts
with a fixed 500ms sleep after every failed attempt, the last
included — total worst-case retry delay 2500ms, not 2000ms — and
`LaunchVM` returns the error of the last attempt; if attempt `k`
(zero-based, `k < 5`) succeeds, no further attempts are made, only
`500·k` ms were slept, and `LaunchVM` succeeds. -/
theorem claim_c1_retry (env : Env) (c : VMConfig) (out : String) (f : Nat → String)
    (hout : env.listResult = Except.ok out)
    (hex : (vmListParse out).contains c.name = true)
    (hdel : VBoxManage env.run (deleteCmd c) = Except.ok ())
    (hcr : ∀ a ∈ createCmds env.goos c, VBoxManage env.run a = Except.ok ())
    (hh : env.headlessStart = Except.ok ()) :
    ((∀ j, j < 5 → env.connect (sockPath env.goos c) j = Except.error (f j)) →
      countConnect (LaunchVM env c).1 = 5 ∧
      totalSleep (LaunchVM env c).1 = 2500 ∧
      (LaunchVM env c).2 = Except.error (f 4)) ∧
    (∀ k, k < 5 →
      (∀ j, j < k → env.connect (sockPath env.goos c) j = Except.error (f j)) →
      env.connect (sockPath env.goos c) k = Except.ok () →
      countConnect (LaunchVM env c).1 = k + 1 ∧
      totalSleep (LaunchVM env c).1 = 500 * k ∧
      (LaunchVM env c).2 = Except.ok ()) := by
  have hL := launch_reach hout (fun _ => hdel) hcr hh
  have hex' : c.name ∈ vmListParse out := by simpa using hex
  constructor
  · intro hf
    have hr := retryLoop_allFail (env.connect (sockPath env.goos c))
      (sockPath env.goos c) f 4 0 (fun j hj => hf j (by omega))
    have hL5 : LaunchVM env c =
        ([Event.listVMs] ++ [Event.manage (deleteCmd c)] ++
          (createCmds env.goos c).map Event.manage ++
          [Event.headless (headlessCmd c)] ++ failTrace (sockPath env.goos c) 5,
         Except.error (f 4)) := by
      rw [hL, hr]
      simp [hex']
    refine ⟨?_, ?_, by simp only [hL5]⟩
    · simp only [hL5]
      rw [countConnect_append, countConnect_append, countConnect_append,
        countConnect_append, countConnect_listVMs, countConnect_manage1,
        countConnect_headless1, countConnect_map_manage, countConnect_failTrace]
    · simp only [hL5]
      rw [totalSleep_append, totalSleep_append, totalSleep_append,
        totalSleep_append, totalSleep_listVMs, totalSleep_manage1,
        totalSleep_headless1, totalSleep_map_manage, totalSleep_failTrace]
  · intro k hk hf hok
    have hr := retryLoop_success (env.connect (sockPath env.goos c))
      (sockPath env.goos c) f k 0 4 (by omega)
      (fun j hj => by simpa using hf j hj) (by simpa using hok)
    have hL5 : LaunchVM env c =
        ([Event.listVMs] ++ [Event.manage (deleteCmd c)] ++
          (createCmds env.goos c).map Event.manage ++
          [Event.headless (headlessCmd c)] ++
          (failTrace (sockPath env.goos c) k ++
            [Event.connectAttempt (sockPath env.goos c)]),
         Except.ok ()) := by
      rw [hL, hr]
      simp [hex']
    refine ⟨?_, ?_, by simp only [hL5]⟩
    · simp only [hL5]
      rw [countConnect_append, countConnect_append, countConnect_append,
        countConnect_append, countConnect_append, countConnect_listVMs,
        countConnect_manage1, countConnect_headless1, countConnect_map_manage,
        countConnect_failTrace, countConnect_connect1]
      omega
    · simp only [hL5]
      rw [totalSleep_append, totalSleep_append, totalSleep_append,
        totalSleep_append, totalSleep_append, totalSleep_listVMs,
        totalSleep_manage1, totalSleep_headless1, totalSleep_map_manage,
        totalSleep_failTrace, totalSleep_connect1]
      omega

/-- C8: when every console-connection attempt fails, `LaunchVM`
returns the last connection error, and after the headless-start event
the trace consists solely of connection attempts and sleeps: no
management command is issued and no process event occurs, so the
already-started VM process is left running untouched. -/
theorem claim_c8_no_cleanup {env : Env} {c : VMConfig} {out : String} (f : Nat → String)
    (hout : env.listResult = Except.ok out)
    (hdel : (vmListParse out).contains c.name = true →
      VBoxManage env.run (deleteCmd c) = Except.ok ())
    (hcr : ∀ a ∈ createCmds env.goos c, VBoxManage env.run a = Except.ok ())
    (hh : env.headlessStart = Except.ok ())
    (hf : ∀ j, env.connect (sockPath env.goos c) j = Except.error (f j)) :
    LaunchVM env c =
      ([Event.listVMs] ++
       (if (vmListParse out).contains c.name then [Event.manage (deleteCmd c)] else []) ++
       (createCmds env.goos c).map Event.manage ++
       [Event.headless (headlessCmd c)] ++ failTrace (sockPath env.goos c) 5,
      Except.error (f 4)) ∧
    (∀ ev ∈ failTrace (sockPath env.goos c) 5,
      (∀ args, ev ≠ Event.manage args) ∧ (∀ args, ev ≠ Event.headless args)) := by
  have hL := launch_reach hout hdel hcr hh
  have hr := retryLoop_allFail (env.connect (sockPath env.goos c))
    (sockPath env.goos c) f 4 0 (fun j _ => hf j)
  rw [hr] at hL
  refine ⟨hL, ?_⟩
  intro ev hev
  rcases failTrace_events (sockPath env.goos c) 5 ev hev with h | h <;>
    subst h <;> exact ⟨fun args => by simp, fun args => by simp⟩

/-- C1 counterexample: in the concrete world where the VM `box`
already exists and every connection attempt is refused, `LaunchVM`
makes exactly 5 attempts and returns the last error, but the total
retry delay is 2500ms — the sleep also runs after the fifth failed
attempt — not the 2000ms of the claim. -/
theorem claim_c1_counterexample :
    countConnect (LaunchVM envRefused cfgBox).1 = 5 ∧
    (LaunchVM envRefused cfgBox).2 = Except.error "refused" ∧
    totalSleep (LaunchVM envRefused cfgBox).1 = 2500 ∧
    totalSleep (LaunchVM envRefused cfgBox).1 ≠ 2000 := by
  refine ⟨rfl, rfl, rfl, by decide⟩

theorem claim_c1_retry_witness :
    (countConnect (LaunchVM envRefused cfgBox).1 = 5 ∧
      totalSleep (LaunchVM envRefused cfgBox).1 = 2500 ∧
      (LaunchVM envRefused cfgBox).2 = Except.error "refused") ∧
    (countConnect (LaunchVM envRetry2 cfgBox).1 = 3 ∧
      totalSleep (LaunchVM envRetry2 cfgBox).1 = 1000 ∧
      (LaunchVM envRetry2 cfgBox).2 = Except.ok ()) := by
  constructor
  · exact (claim_c1_retry envRefused cfgBox "\"box\" {id}" (fun _ => "refused")
      rfl rfl rfl (fun a _ => rfl) rfl).1 (fun j _ => rfl)
  · exact (claim_c1_retry envRetry2 cfgBox "\"box\" {id}" (fun _ => "nope")
      rfl rfl rfl (fun a _ => rfl) rfl).2 2 (by omega)
      (fun j hj => by simp [envRetry2, hj]) rfl

theorem claim_c2_provisioner_order_witness :
    vmCreate envNatFail cfgBox =
      ((preNatCmds cfgBox).map Event.manage ++
        [Event.manage (natCmd cfgBox (Rule.mk "8080" "9090"))],
       Except.error "VBoxManage [modifyvm box --natpf1 guest8080,tcp,,9090,,8080]") ∧
    Event.manage ["modifyvm", cfgBox.name, "--hpet", "on"] ∉
      (vmCreate envNatFail cfgBox).1 ∧
    Event.manage ["modifyvm", cfgBox.name, "--uart1", "0x3f8", "4", "--uartmode1",
      "server", sockPath envNatFail.goos cfgBox] ∉ (vmCreate envNatFail cfgBox).1 ∧
    Event.manage ["modifyvm", cfgBox.name, "--memory", toString cfgBox.memory] ∉
      (vmCreate envNatFail cfgBox).1 ∧
    Event.manage ["modifyvm", cfgBox.name, "--cpus", toString cfgBox.cpus] ∉
      (vmCreate envNatFail cfgBox).1 :=
  (claim_c2_provisioner_order envNatFail cfgBox).2.2 (Rule.mk "8080" "9090") []
    "VBoxManage [modifyvm box --natpf1 guest8080,tcp,,9090,,8080]" rfl
    (by intro a ha; fin_cases ha <;> rfl) rfl

theorem claim_c3_idempotent_relaunch_witness :
    LaunchVM envAbsent cfgBox =
      ([Event.listVMs] ++ (createCmds envAbsent.goos cfgBox).map Event.manage ++
        [Event.headless (headlessCmd cfgBox)] ++
        [Event.connectAttempt (sockPath envAbsent.goos cfgBox)], Except.ok ()) ∧
    Event.manage (deleteCmd cfgBox) ∉ (LaunchVM envAbsent cfgBox).1 ∧
    LaunchVM envDelFail cfgBox =
      ([Event.listVMs, Event.manage (deleteCmd cfgBox)],
        Except.error "VBoxManage [unregistervm box --delete]") := by
  have h1 := (@claim_c3_idempotent_relaunch envAbsent cfgBox "\"other\" {id}" rfl).1 rfl
  have h2 := (@claim_c3_idempotent_relaunch envDelFail cfgBox "\"box\" {id}" rfl).2 rfl
  exact ⟨h1.1 (fun a _ => rfl) rfl rfl, h1.2, h2.2 _ rfl⟩

theorem claim_c4_nat_translator_witness :
    splitCh ',' (natRuleString (Rule.mk "8080" "9090")).data =
      [("guest" ++ "8080").data, "tcp".data, [], ("9090" : String).data, [],
        ("8080" : String).data] ∧
    (natCmds cfgBox)[0]? =
      some ["modifyvm", cfgBox.name, "--natpf1",
        natRuleString (Rule.mk "8080" "9090")] := by
  have h := claim_c4_nat_translator "8080" "9090" (by decide) (by decide)
  exact ⟨h.1, h.2 cfgBox 0 (Rule.mk "8080" "9090") rfl⟩

theorem claim_c5_inventory_witness :
    (vmList envErr).2 = Except.error "boom" ∧
    vmListParse "\"vm1\" {uuid}\ngarbage line" = ["vm1"] ∧
    quotedGroup ['g', 'a', 'r'] = none ∧
    quotedGroup (([] : List Char) ++ '"' :: ['v'] ++ '"' :: []) = some ['v'] := by
  have h := claim_c5_inventory envErr
  exact ⟨h.1 "boom" rfl, h.2.2.1, h.2.2.2.1 ['g', 'a', 'r'] (by decide),
    h.2.2.2.2 [] ['v'] [] (by decide) (by decide)⟩

theorem claim_c6_sock_path_witness :
    sockPath envRefused.goos cfgBox =
      cfgBox.dir ++ "/" ++ cfgBox.name ++ "/" ++ cfgBox.name ++ ".sock" ∧
    ["modifyvm", cfgBox.name, "--uart1", "0x3f8", "4", "--uartmode1", "server",
      sockPath envRefused.goos cfgBox] ∈ createCmds envRefused.goos cfgBox ∧
    "/tmp/box/box.sock" = sockPath envRefused.goos cfgBox := by
  have h := claim_c6_sock_path envRefused cfgBox
  exact ⟨h.2.1 (by decide), h.2.2.1, h.2.2.2 "/tmp/box/box.sock" (by decide)⟩

theorem claim_c7_executor_witness :
    VBoxManage startFailRun ["controlvm", "box", "poweroff"] =
      Except.error "exec not found" ∧
    VBoxManage allOk ["controlvm", "box", "poweroff"] = Except.ok () ∧
    VBoxManage exitFailRun ["controlvm", "box", "poweroff"] =
      Except.error ("VBoxManage " ++ goFmtStrings ["controlvm", "box", "poweroff"]) :=
  ⟨(claim_c7_executor startFailRun _).1 "exec not found" false rfl,
    (claim_c7_executor allOk _).2.1 rfl,
    ((claim_c7_executor exitFailRun _).2.2 rfl).1⟩

theorem claim_c8_no_cleanup_witness :
    LaunchVM envRefused cfgBox =
      ([Event.listVMs] ++
       (if (vmListParse "\"box\" {id}").contains cfgBox.name then
         [Event.manage (deleteCmd cfgBox)] else []) ++
       (createCmds envRefused.goos cfgBox).map Event.manage ++
       [Event.headless (headlessCmd cfgBox)] ++
       failTrace (sockPath envRefused.goos cfgBox) 5,
      Except.error "refused") ∧
    Event.sleep 500 ≠ Event.manage ["controlvm", "box", "poweroff"] := by
  have h := @claim_c8_no_cleanup envRefused cfgBox "\"box\" {id}"
    (fun _ => "refused") rfl (fun _ => rfl) (fun a _ => rfl) rfl (fun j => rfl)
  exact ⟨h.1, (h.2 (Event.sleep 500) (by decide)).1 ["controlvm", "box", "poweroff"]⟩

theorem claim_c9_greedy_capture_witness :
    quotedGroup (['x'] ++ '"' :: ['a', '"', ' ', '"', 'b'] ++ '"' :: ['y']) =
      some ['a', '"', ' ', '"', 'b'] ∧
    (vmListParse "\"a\" \"b\"").length ≤
      (splitCh '\n' ("\"a\" \"b\"" : String).data).length :=
  ⟨claim_c9_greedy_capture.2.2.1 ['x'] ['a', '"', ' ', '"', 'b'] ['y']
      (by decide) (by decide),
    claim_c9_greedy_capture.2.2.2 "\"a\" \"b\""⟩

theorem claim_c10_exact_match_witness :
    (vmExists envSub cfgCap.name).2 = Except.ok false ∧
    Event.manage (deleteCmd cfgCap) ∉ (LaunchVM envSub cfgCap).1 :=
  (@claim_c10_exact_match envSub "\"capstan-vm\" {id}" cfgCap rfl).2.2 (by decide)

end Capstan
